import Mathlib

/-!
# Verification of `left-right-cell`

A shallow embedding of the `left-right-cell` crate: a single-writer,
multi-reader shared value cell built on double-buffered storage (two copies
of the value), an operation log, and a publish protocol that swaps the two
copies and replays the log to keep them eventually consistent.

The `Absorb` implementation (`absorb_first`, `absorb_second`, `sync_with`),
the `SetOp` and `Inner` wrappers, and the handle methods (`set`, `publish`,
`get`, `get_unchecked`, `new`, `clone`, guard `deref`) are translated from
`src/lib.rs`.  The underlying `left_right` machinery (the two slots, the
active selector, the operation log, the per-reader epoch counters and the
writer-drop behaviour) is not part of this repository's sources; it is
modelled from the specification's description of the protocol.
-/

namespace LeftRightCell

/-- `SetOp<T>`: the single operation kind, "replace the whole value". -/
structure SetOp (T : Type) where
  val : T
deriving DecidableEq, Repr

/-- `Inner<T>`: the newtype wrapper around the stored value. -/
structure Inner (T : Type) where
  val : T
deriving DecidableEq, Repr

/-- `Absorb::absorb_first` from src/lib.rs: `self.0 = operation.0.clone()`.
The third argument is the other copy, unused by this implementation. -/
def absorb_first {T : Type} (_self : Inner T) (operation : SetOp T)
    (_other : Inner T) : Inner T :=
  { val := operation.val }

/-- `Absorb::absorb_second` from src/lib.rs: `self.0 = operation.0`. -/
def absorb_second {T : Type} (_self : Inner T) (operation : SetOp T)
    (_other : Inner T) : Inner T :=
  { val := operation.val }

/-- `Absorb::sync_with` from src/lib.rs: `self.0 = first.0.clone()`. -/
def sync_with {T : Type} (_self : Inner T) (first : Inner T) : Inner T :=
  { val := first.val }

/-- Modelled from the spec: the state of the whole cell, missing from src/
(it lives in the external `left_right` crate).  Two value copies (the
"active" one observed by readers and the "standby" one private to the
writer), the ordered operation log of appends since the standby copy was
last synchronized, the liveness of the `WriteHandle` (dropping it releases
the backing storage), and one epoch counter per reader handle. -/
structure Cell (T : Type) where
  active : Inner T
  standby : Inner T
  log : List (SetOp T)
  alive : Bool
  epochs : List Nat
deriving DecidableEq, Repr

/-- `ReadGuard<'a, T>`: a guard holding a borrow of the active copy. -/
structure ReadGuard (T : Type) where
  inner : Inner T
deriving DecidableEq, Repr

/-- `Deref for ReadGuard`: `&self.0.as_ref().0`. -/
def ReadGuard.deref {T : Type} (g : ReadGuard T) : T :=
  g.inner.val

/-- Modelled from the spec: `left_right::ReadHandle::enter`.  Wait-free read
entry: if the write handle is still alive it records the read section in the
reader's epoch counter and hands out the currently active copy; once the
write handle has been dropped and the storage released it returns `none`. -/
def enter {T : Type} (c : Cell T) (rid : Nat) : Option (Inner T) × Cell T :=
  if c.alive then
    (some c.active, { c with epochs := c.epochs.set rid (c.epochs.getD rid 0 + 1) })
  else
    (none, c)

/-- Modelled from the spec: dropping a `ReadGuard` ends the read section,
bumping the owning reader's epoch counter again. -/
def exitSection {T : Type} (c : Cell T) (rid : Nat) : Cell T :=
  { c with epochs := c.epochs.set rid (c.epochs.getD rid 0 + 1) }

/-- `ReadHandle::get` from src/lib.rs:
`self.0.enter().map(|guard| ReadGuard(guard))`.  A reader handle is its
index `rid` into the cell's epoch-counter table. -/
def ReadHandle.get {T : Type} (c : Cell T) (rid : Nat) :
    Option (ReadGuard T) × Cell T :=
  ((enter c rid).1.map ReadGuard.mk, (enter c rid).2)

/-- `Clone for ReadHandle` from src/lib.rs, with the epoch registration
modelled from the spec: the clone is an independent identity with its own
fresh epoch counter.  Returns the updated cell and the new reader id. -/
def ReadHandle.clone {T : Type} (c : Cell T) : Cell T × Nat :=
  ({ c with epochs := c.epochs ++ [0] }, c.epochs.length)

/-- Modelled from the spec: `left_right::WriteHandle::append`.  Records the
operation at the tail of the log and applies it eagerly to the standby copy
(the writer's private view is always current); never blocks, never fails. -/
def WriteHandle.append {T : Type} (c : Cell T) (op : SetOp T) : Cell T :=
  { c with
    standby := absorb_first c.standby op c.active
    log := c.log ++ [op] }

/-- `WriteHandle::set` from src/lib.rs: `self.0.append(SetOp(value))`. -/
def WriteHandle.set {T : Type} (c : Cell T) (v : T) : Cell T :=
  WriteHandle.append c (SetOp.mk v)

/-- Modelled from the spec: `left_right::WriteHandle::publish`, wrapped by
`WriteHandle::publish` in src/lib.rs.  (a) flips the active selector, so the
previously-standby copy becomes active; (b) waits for quiescence on the
vacated slot (blocking only, no state change on the value copies); (c)
replays the buffered log in order onto that slot via `absorb_second`;
(d) clears the log; (e) the caught-up slot is the new standby. -/
def WriteHandle.publish {T : Type} (c : Cell T) : Cell T :=
  { c with
    active := c.standby
    standby := c.log.foldl (fun a op => absorb_second a op c.standby) c.active
    log := [] }

/-- Modelled from the spec: dropping the `WriteHandle` drops both copies;
read handles can no longer obtain a guard afterwards. -/
def dropWriter {T : Type} (c : Cell T) : Cell T :=
  { c with alive := false }

/-- `new` from src/lib.rs:
`left_right::new_from_empty::<Inner<T>, SetOp<T>>(Inner(value))`, which
initializes both copies from the given value (the read side observes the
initial value before any publish, as the crate's own test relies on).
The single initial read handle is reader id 0. -/
def new {T : Type} (value : T) : Cell T :=
  { active := Inner.mk value
    standby := Inner.mk value
    log := []
    alive := true
    epochs := [0] }

/-- A sequence of `set` calls, in order. -/
def setMany {T : Type} (c : Cell T) (vs : List T) : Cell T :=
  vs.foldl WriteHandle.set c

/-- Reader-side operations: acquiring a guard, dropping a guard, cloning a
read handle.  These are the operations available once the writer is gone. -/
inductive ReaderOp where
  | acquire (rid : Nat)
  | release (rid : Nat)
  | dup
deriving DecidableEq, Repr

/-- Apply one reader-side operation to the cell. -/
def applyReaderOp {T : Type} (c : Cell T) : ReaderOp → Cell T
  | ReaderOp.acquire rid => (ReadHandle.get c rid).2
  | ReaderOp.release rid => exitSection c rid
  | ReaderOp.dup => (ReadHandle.clone c).1

/-- Apply a sequence of reader-side operations, in order. -/
def applyReaderOps {T : Type} (c : Cell T) (ops : List ReaderOp) : Cell T :=
  ops.foldl applyReaderOp c

/-- The log-replay invariant from the spec's data model: replaying the full
log, in order, onto a copy matching the active copy reproduces the standby
copy's state exactly. -/
def inv {T : Type} (c : Cell T) : Prop :=
  c.standby = c.log.foldl (fun a op => absorb_first a op c.active) c.active

/-- The cell states reachable through the public API. -/
inductive Reachable {T : Type} : Cell T → Prop where
  | init (v : T) : Reachable (new v)
  | step_set {c : Cell T} (v : T) : Reachable c → Reachable (WriteHandle.set c v)
  | step_publish {c : Cell T} : Reachable c → Reachable (WriteHandle.publish c)
  | step_drop {c : Cell T} : Reachable c → Reachable (dropWriter c)
  | step_reader {c : Cell T} (op : ReaderOp) :
      Reachable c → Reachable (applyReaderOp c op)

/-! ## Basic lemmas -/

lemma absorb_first_eq_absorb_second {T : Type} (a : Inner T) (op : SetOp T)
    (x y : Inner T) : absorb_first a op x = absorb_second a op y := rfl

lemma foldl_absorb_congr {T : Type} (l : List (SetOp T)) (a : Inner T)
    (x y : Inner T) :
    l.foldl (fun b op => absorb_first b op x) a
      = l.foldl (fun b op => absorb_second b op y) a := by
  induction l generalizing a with
  | nil => rfl
  | cons op t ih => exact ih _

lemma set_active {T : Type} (c : Cell T) (v : T) :
    (WriteHandle.set c v).active = c.active := rfl

lemma set_alive {T : Type} (c : Cell T) (v : T) :
    (WriteHandle.set c v).alive = c.alive := rfl

lemma set_epochs {T : Type} (c : Cell T) (v : T) :
    (WriteHandle.set c v).epochs = c.epochs := rfl

lemma setMany_active {T : Type} (c : Cell T) (vs : List T) :
    (setMany c vs).active = c.active := by
  induction vs generalizing c with
  | nil => rfl
  | cons v t ih => exact (ih (WriteHandle.set c v)).trans rfl

lemma setMany_alive {T : Type} (c : Cell T) (vs : List T) :
    (setMany c vs).alive = c.alive := by
  induction vs generalizing c with
  | nil => rfl
  | cons v t ih => exact (ih (WriteHandle.set c v)).trans rfl

lemma setMany_epochs {T : Type} (c : Cell T) (vs : List T) :
    (setMany c vs).epochs = c.epochs := by
  induction vs generalizing c with
  | nil => rfl
  | cons v t ih => exact (ih (WriteHandle.set c v)).trans rfl

lemma publish_alive {T : Type} (c : Cell T) :
    (WriteHandle.publish c).alive = c.alive := rfl

lemma publish_active {T : Type} (c : Cell T) :
    (WriteHandle.publish c).active = c.standby := rfl

lemma setMany_standby {T : Type} (c : Cell T) (vs : List T) (h : vs ≠ []) :
    (setMany c vs).standby = Inner.mk (vs.getLast h) := by
  induction vs generalizing c with
  | nil => exact absurd rfl h
  | cons v t ih =>
    cases t with
    | nil => rfl
    | cons w u =>
      rw [List.getLast_cons (by simp)]
      exact ih (WriteHandle.set c v) (by simp)

/-- A `get` depends only on the liveness flag and the active copy. -/
lemma get_fst {T : Type} (c : Cell T) (rid : Nat) :
    (ReadHandle.get c rid).1
      = if c.alive then some (ReadGuard.mk c.active) else none := by
  unfold ReadHandle.get enter
  by_cases h : c.alive = true
  · simp [h]
  · simp at h
    simp [h]

lemma readerOp_active {T : Type} (c : Cell T) (op : ReaderOp) :
    (applyReaderOp c op).active = c.active := by
  cases op with
  | acquire rid =>
    unfold applyReaderOp ReadHandle.get enter
    by_cases h : c.alive = true
    · simp [h]
    · simp at h; simp [h]
  | release rid => rfl
  | dup => rfl

lemma readerOp_alive {T : Type} (c : Cell T) (op : ReaderOp) :
    (applyReaderOp c op).alive = c.alive := by
  cases op with
  | acquire rid =>
    unfold applyReaderOp ReadHandle.get enter
    by_cases h : c.alive = true
    · simp [h]
    · simp at h; simp [h]
  | release rid => rfl
  | dup => rfl

lemma readerOps_active {T : Type} (c : Cell T) (ops : List ReaderOp) :
    (applyReaderOps c ops).active = c.active := by
  induction ops generalizing c with
  | nil => rfl
  | cons op t ih => exact (ih (applyReaderOp c op)).trans (readerOp_active c op)

lemma readerOps_alive {T : Type} (c : Cell T) (ops : List ReaderOp) :
    (applyReaderOps c ops).alive = c.alive := by
  induction ops generalizing c with
  | nil => rfl
  | cons op t ih => exact (ih (applyReaderOp c op)).trans (readerOp_alive c op)

/-! ## The invariant is established by `new` and preserved by every step -/

lemma inv_new {T : Type} (v : T) : inv (new v) := rfl

lemma inv_set {T : Type} (c : Cell T) (v : T) (h : inv c) :
    inv (WriteHandle.set c v) := by
  unfold inv at h ⊢
  unfold WriteHandle.set WriteHandle.append
  simp only [List.foldl_append, List.foldl_cons, List.foldl_nil]
  rw [← h]

lemma inv_publish {T : Type} (c : Cell T) (h : inv c) :
    inv (WriteHandle.publish c) := by
  unfold inv at h ⊢
  unfold WriteHandle.publish
  simp only [List.foldl_nil]
  exact (foldl_absorb_congr c.log c.active c.active c.standby).symm.trans h.symm

lemma inv_drop {T : Type} (c : Cell T) (h : inv c) : inv (dropWriter c) := h

lemma inv_readerOp {T : Type} (c : Cell T) (op : ReaderOp) (h : inv c) :
    inv (applyReaderOp c op) := by
  cases op with
  | acquire rid =>
    unfold inv at h ⊢
    unfold applyReaderOp ReadHandle.get enter
    by_cases ha : c.alive = true
    · simpa [ha] using h
    · simp at ha; simpa [ha] using h
  | release rid => exact h
  | dup => exact h

lemma inv_reachable {T : Type} (c : Cell T) (h : Reachable c) : inv c := by
  induction h with
  | init v => exact inv_new v
  | step_set v _ ih => exact inv_set _ v ih
  | step_publish _ ih => exact inv_publish _ ih
  | step_drop _ ih => exact inv_drop _ ih
  | step_reader op _ ih => exact inv_readerOp _ op ih

/-- Under the invariant, a publish leaves standby and active in parity. -/
lemma publish_parity {T : Type} (c : Cell T) (h : inv c) :
    (WriteHandle.publish c).standby = (WriteHandle.publish c).active := by
  unfold WriteHandle.publish
  simp only
  rw [← foldl_absorb_congr c.log c.active c.active c.standby, ← h]

/-- Under the invariant, the standby copy after a publish equals the
pre-publish standby copy. -/
lemma publish_standby {T : Type} (c : Cell T) (h : inv c) :
    (WriteHandle.publish c).standby = c.standby :=
  (foldl_absorb_congr c.log c.active c.active c.standby).symm.trans h.symm

/-- Under the invariant, publish is idempotent on the whole cell state. -/
lemma publish_publish {T : Type} (c : Cell T) (h : inv c) :
    WriteHandle.publish (WriteHandle.publish c) = WriteHandle.publish c := by
  have hX := publish_standby c h
  unfold WriteHandle.publish at hX ⊢
  simp only at hX ⊢
  rw [hX]
  simp only [List.foldl_nil]

lemma enter_isSome {T : Type} (c : Cell T) (rid : Nat) (h : c.alive = true) :
    ((enter c rid).1.map ReadGuard.mk).isSome := by
  unfold enter
  simp [h]

/-- `ReadHandle::get_unchecked` from src/lib.rs:
`self.0.enter().map(|guard| ReadGuard(guard)).unwrap_unchecked()`.  The
caller's safety obligation (the `WriteHandle` has not been dropped) is the
hypothesis `h`, which discharges the `unwrap_unchecked`. -/
def ReadHandle.get_unchecked {T : Type} (c : Cell T) (rid : Nat)
    (h : c.alive = true) : ReadGuard T × Cell T :=
  (((enter c rid).1.map ReadGuard.mk).get (enter_isSome c rid h),
    (enter c rid).2)

lemma get_snd {T : Type} (c : Cell T) (rid : Nat) :
    (ReadHandle.get c rid).2 = (enter c rid).2 := rfl

lemma enter_snd_active {T : Type} (c : Cell T) (rid : Nat) :
    (enter c rid).2.active = c.active := by
  unfold enter
  by_cases h : c.alive = true
  · simp [h]
  · simp at h; simp [h]

lemma enter_snd_standby {T : Type} (c : Cell T) (rid : Nat) :
    (enter c rid).2.standby = c.standby := by
  unfold enter
  by_cases h : c.alive = true
  · simp [h]
  · simp at h; simp [h]

lemma enter_snd_log {T : Type} (c : Cell T) (rid : Nat) :
    (enter c rid).2.log = c.log := by
  unfold enter
  by_cases h : c.alive = true
  · simp [h]
  · simp at h; simp [h]

lemma enter_snd_alive {T : Type} (c : Cell T) (rid : Nat) :
    (enter c rid).2.alive = c.alive := by
  unfold enter
  by_cases h : c.alive = true
  · simp [h]
  · simp at h; simp [h]

/-! ## The claims -/

/-- C1: for every sequence of `set(v1), ..., set(vn)` calls (n ≥ 1) made
since the last publish, after `publish()` every subsequent `get()` — from
any reader handle, after any further reader-side activity — yields a guard
observing exactly `vn`, the argument of the last `set`, and dereferencing
that guard produces `vn` whole, with no partial or torn value. -/
theorem C1_read_after_publish {T : Type} (c : Cell T) (vs : List T)
    (h : vs ≠ []) (ha : c.alive = true) (ops : List ReaderOp) (rid : Nat) :
    (ReadHandle.get
        (applyReaderOps (WriteHandle.publish (setMany c vs)) ops) rid).1
      = some (ReadGuard.mk (Inner.mk (vs.getLast h)))
    ∧ (ReadGuard.mk (Inner.mk (vs.getLast h))).deref = vs.getLast h := by
  refine ⟨?_, rfl⟩
  rw [get_fst, readerOps_alive, readerOps_active, publish_alive,
    publish_active, setMany_alive, ha, setMany_standby c vs h]
  rfl

/-- Witness for C1 at a concrete input: `set(1); set(2); set(3); publish()`
starting from `new 0`; `get()` then observes `3`. -/
theorem C1_read_after_publish_witness :
    (ReadHandle.get
        (applyReaderOps (WriteHandle.publish (setMany (new (0 : Nat)) [1, 2, 3])) []) 0).1
      = some (ReadGuard.mk (Inner.mk 3))
    ∧ (ReadGuard.mk (Inner.mk (3 : Nat))).deref = 3 :=
  C1_read_after_publish (new (0 : Nat)) [1, 2, 3] (by decide) rfl [] 0

/-- C2: appending `set` operations without publishing never changes what a
reader observes — `get()` after any sequence of `set` calls returns exactly
what it returned before them (the previously published value). -/
theorem C2_pre_publish_isolation {T : Type} (c : Cell T) (vs : List T)
    (rid : Nat) :
    (ReadHandle.get (setMany c vs) rid).1 = (ReadHandle.get c rid).1 := by
  rw [get_fst, get_fst, setMany_alive, setMany_active]

/-- C3: `get()` returns `none` if and only if the `WriteHandle` has been
dropped; once it is dropped, `get()` returns `none` on every reader handle
after any further reader-side activity (including future clones); while it
is alive, `get()` returns a guard. -/
theorem C3_get_none_iff_dropped {T : Type} (c : Cell T) (ops : List ReaderOp)
    (rid rid2 : Nat) :
    ((ReadHandle.get c rid).1 = none ↔ c.alive = false)
    ∧ (ReadHandle.get (applyReaderOps (dropWriter c) ops) rid2).1 = none := by
  constructor
  · rw [get_fst]
    by_cases h : c.alive = true
    · simp [h]
    · simp at h; simp [h]
  · rw [get_fst, readerOps_alive]
    rfl

/-- C4: the two value copies converge: `absorb_first` and `absorb_second`
send equal copies to equal copies for every operation, `sync_with` makes a
copy equal to the other, and after a publish cycle on a reachable state the
reclaimed copy holds exactly the state of the active copy. -/
theorem C4_copies_converge {T : Type} (a b : Inner T) (op : SetOp T)
    (x y : Inner T) (s : Cell T) (hab : a = b) (hs : Reachable s) :
    absorb_first a op x = absorb_second b op y
    ∧ sync_with a b = b
    ∧ (WriteHandle.publish s).standby = (WriteHandle.publish s).active :=
  ⟨hab ▸ rfl, rfl, publish_parity s (inv_reachable s hs)⟩

/-- Witness for C4 at concrete inputs. -/
theorem C4_copies_converge_witness :
    absorb_first (Inner.mk (0 : Nat)) (SetOp.mk 5) (Inner.mk 7)
        = absorb_second (Inner.mk 0) (SetOp.mk 5) (Inner.mk 9)
    ∧ sync_with (Inner.mk (0 : Nat)) (Inner.mk 0) = Inner.mk 0
    ∧ (WriteHandle.publish (new (0 : Nat))).standby
        = (WriteHandle.publish (new 0)).active :=
  C4_copies_converge (Inner.mk 0) (Inner.mk 0) (SetOp.mk 5) (Inner.mk 7)
    (Inner.mk 9) (new 0) rfl (Reachable.init 0)

/-- C5: publishing with an empty log leaves the observed value unchanged,
and publish immediately followed by publish equals a single publish. -/
theorem C5_empty_publish_noop {T : Type} (c : Cell T) (rid : Nat)
    (hs : Reachable c) :
    (c.log = [] →
      (ReadHandle.get (WriteHandle.publish c) rid).1 = (ReadHandle.get c rid).1)
    ∧ WriteHandle.publish (WriteHandle.publish c) = WriteHandle.publish c := by
  have hinv := inv_reachable c hs
  constructor
  · intro hl
    have hsa : c.standby = c.active := by
      rw [hinv, hl]
      rfl
    rw [get_fst, get_fst, publish_alive, publish_active, hsa]
  · exact publish_publish c hinv

/-- Witness for C5 at a concrete input: a freshly constructed cell has an
empty log, and a redundant publish changes nothing. -/
theorem C5_empty_publish_noop_witness :
    ((new (0 : Nat)).log = [] →
      (ReadHandle.get (WriteHandle.publish (new (0 : Nat))) 0).1
        = (ReadHandle.get (new (0 : Nat)) 0).1)
    ∧ WriteHandle.publish (WriteHandle.publish (new (0 : Nat)))
        = WriteHandle.publish (new (0 : Nat)) :=
  C5_empty_publish_noop (new (0 : Nat)) 0 (Reachable.init 0)

/-- C6: `set` is total — in this embedding it is a plain function into
`Cell T`, with no `Option`/`Except` error branch — and from every reachable
state it produces a reachable, invariant-preserving successor without
touching the liveness of the handles. -/
theorem C6_set_total {T : Type} (c : Cell T) (v : T) (hs : Reachable c) :
    Reachable (WriteHandle.set c v)
    ∧ inv (WriteHandle.set c v)
    ∧ (WriteHandle.set c v).alive = c.alive :=
  ⟨Reachable.step_set v hs, inv_set c v (inv_reachable c hs), rfl⟩

/-- Witness for C6 at a concrete input. -/
theorem C6_set_total_witness :
    Reachable (WriteHandle.set (new (0 : Nat)) 5)
    ∧ inv (WriteHandle.set (new (0 : Nat)) 5)
    ∧ (WriteHandle.set (new (0 : Nat)) 5).alive = (new (0 : Nat)).alive :=
  C6_set_total (new 0) 5 (Reachable.init 0)

/-- C7: under the precondition that the `WriteHandle` is alive,
`get_unchecked()` returns exactly the guard that `get()` wraps in `some`
(with the same effect on the cell), and the `none` branch removed by
`unwrap_unchecked` is unreachable. -/
theorem C7_get_unchecked_agrees {T : Type} (c : Cell T) (rid : Nat)
    (h : c.alive = true) :
    (ReadHandle.get c rid).1 = some (ReadHandle.get_unchecked c rid h).1
    ∧ (ReadHandle.get c rid).1 ≠ none
    ∧ (ReadHandle.get_unchecked c rid h).2 = (ReadHandle.get c rid).2 := by
  refine ⟨(Option.some_get (enter_isSome c rid h)).symm, ?_, rfl⟩
  rw [get_fst]
  simp [h]

/-- Witness for C7 at a concrete input. -/
theorem C7_get_unchecked_agrees_witness :
    (ReadHandle.get (new (0 : Nat)) 0).1
        = some (ReadHandle.get_unchecked (new (0 : Nat)) 0 rfl).1
    ∧ (ReadHandle.get (new (0 : Nat)) 0).1 ≠ none
    ∧ (ReadHandle.get_unchecked (new (0 : Nat)) 0 rfl).2
        = (ReadHandle.get (new (0 : Nat)) 0).2 :=
  C7_get_unchecked_agrees (new 0) 0 rfl

/-- C9: immediately after `new(v)`, before any publish, `get()` on the
returned reader handle yields a guard, and that guard observes exactly the
initial value `v`. -/
theorem C9_initial_value_visible {T : Type} (v : T) :
    (ReadHandle.get (new v) 0).1 = some (ReadGuard.mk (Inner.mk v))
    ∧ (ReadGuard.mk (Inner.mk v)).deref = v := by
  refine ⟨?_, rfl⟩
  rw [get_fst]
  rfl

/-- C10: reading is effect-free and deterministic: acquiring a guard (and
then releasing it) changes neither copy, the log, nor the liveness flag; two
`get` calls with no intervening `set` or `publish` observe equal values; and
a clone of the reader handle observes the same value as the original. -/
theorem C10_read_effect_free {T : Type} (c : Cell T) (rid rid2 : Nat) :
    ((ReadHandle.get c rid).2.active = c.active
      ∧ (ReadHandle.get c rid).2.standby = c.standby
      ∧ (ReadHandle.get c rid).2.log = c.log
      ∧ (ReadHandle.get c rid).2.alive = c.alive)
    ∧ ((exitSection (ReadHandle.get c rid).2 rid).active = c.active
      ∧ (exitSection (ReadHandle.get c rid).2 rid).standby = c.standby
      ∧ (exitSection (ReadHandle.get c rid).2 rid).log = c.log
      ∧ (exitSection (ReadHandle.get c rid).2 rid).alive = c.alive)
    ∧ (ReadHandle.get (ReadHandle.get c rid).2 rid2).1
        = (ReadHandle.get c rid2).1
    ∧ (ReadHandle.get (ReadHandle.clone c).1 (ReadHandle.clone c).2).1
        = (ReadHandle.get c rid).1 := by
  refine ⟨⟨enter_snd_active c rid, enter_snd_standby c rid,
    enter_snd_log c rid, enter_snd_alive c rid⟩,
    ⟨enter_snd_active c rid, enter_snd_standby c rid,
      enter_snd_log c rid, enter_snd_alive c rid⟩, ?_, ?_⟩
  · rw [get_fst, get_fst, get_snd, enter_snd_alive, enter_snd_active]
  · rw [get_fst, get_fst]
    rfl

end LeftRightCell
